import Mathlib

/-
Verification of the occupancy-grid exploration core in
`src/single_drone/connect.py` (class `TelloExplorer`).

The Python class is shallowly embedded as follows.

* The numpy arrays `occ_map` / `visited` become total functions `ℤ → ℤ → _`
  together with explicit shape fields `h`, `w`; a numpy read or write at a
  possibly negative index goes through `npIdx`, which models numpy's
  negative-index wrap-around (`a[-1]` is the last row).
* `np.pad` becomes the function `ensure_in_map`, which rebuilds the cell
  function so that new index `(i, j)` holds old cell `(i - pad_top, j - pad_left)`
  inside the copied block and `unknown` outside it, exactly as
  `np.pad(..., constant_values=unknown)` does.
* World coordinates and the map resolution are rationals (idealising the
  Python floats); headings are real numbers because they come from
  trigonometric functions (`atan2`, quaternion-to-Euler).
* Python 3 `round` (banker's rounding, ties to even) is `pyRound`;
  Python `int()` on a float (truncation toward zero) is `pyInt`;
  Python `%` on floats with a positive divisor is `fmod`.
* The djitellopy motion calls (`rotate_clockwise`, `rotate_counter_clockwise`,
  `move_forward`, `takeoff`, `land`) are recorded in a command trace of type
  `List Cmd`; state-mutating methods return the new state (and trace).
-/

namespace DroneSearch

/-- Cell states of the occupancy grid; in the source `unknown = -1`,
`free = 0`, `occ = 1`. -/
inductive Cell where
  | unknown
  | free
  | occ
deriving DecidableEq, Repr

/-- The mutable state of `TelloExplorer`: resolution, the `h × w` occupancy
map and visited mask (as total functions with explicit shape), the `origin`
index of world (0,0), the current cell index, and the heading `yaw` in
degrees. -/
structure Explorer where
  res : ℚ
  h : ℕ
  w : ℕ
  occ_map : ℤ → ℤ → Cell
  visited : ℤ → ℤ → Bool
  origin : ℤ × ℤ
  curr_idx : ℤ × ℤ
  yaw : ℝ

/-- numpy index semantics: a negative index counts from the end of an axis of
length `n`. -/
def npIdx (n : ℕ) (i : ℤ) : ℤ :=
  if i < 0 then i + n else i

/-- Python 3 `round`: nearest integer, ties to even. -/
def pyRound (q : ℚ) : ℤ :=
  let f := ⌊q⌋
  let r := q - f
  if r < 1 / 2 then f
  else if 1 / 2 < r then f + 1
  else if Even f then f else f + 1

/-- `TelloExplorer.__init__` (map part): an `init_size × init_size` grid of
`unknown`, origin and current index at the centre, heading 0. -/
def initExplorer (res : ℚ) (init_size : ℕ) : Explorer where
  res := res
  h := init_size
  w := init_size
  occ_map := fun _ _ => Cell.unknown
  visited := fun _ _ => false
  origin := ((init_size / 2 : ℕ), (init_size / 2 : ℕ))
  curr_idx := ((init_size / 2 : ℕ), (init_size / 2 : ℕ))
  yaw := 0

/-- `TelloExplorer.world_to_grid`:
`(round(x/res) + origin.1, round(y/res) + origin.2)`. -/
def world_to_grid (s : Explorer) (x y : ℚ) : ℤ × ℤ :=
  (pyRound (x / s.res) + s.origin.1, pyRound (y / s.res) + s.origin.2)

/-- `TelloExplorer.ensure_in_map`: pad the occupancy map and visited mask so
that `(gx, gy)` is covered, shifting `origin` and `curr_idx` by the top/left
pad amounts.  The `np.pad` call is modelled by rebuilding the cell functions:
new index `(i, j)` holds old cell `(i - pad_top, j - pad_left)` inside the
copied block and `unknown` / `false` outside it. -/
def ensure_in_map (s : Explorer) (gx gy : ℤ) : Explorer :=
  let h : ℤ := (s.h : ℤ)
  let w : ℤ := (s.w : ℤ)
  let pad_top := max 0 (-gx)
  let pad_bottom := max 0 (gx - (h - 1))
  let pad_left := max 0 (-gy)
  let pad_right := max 0 (gy - (w - 1))
  if pad_top ≠ 0 ∨ pad_bottom ≠ 0 ∨ pad_left ≠ 0 ∨ pad_right ≠ 0 then
    { res := s.res
      h := s.h + (pad_top.toNat + pad_bottom.toNat)
      w := s.w + (pad_left.toNat + pad_right.toNat)
      occ_map := fun i j =>
        if pad_top ≤ i ∧ i < pad_top + h ∧ pad_left ≤ j ∧ j < pad_left + w then
          s.occ_map (i - pad_top) (j - pad_left)
        else Cell.unknown
      visited := fun i j =>
        if pad_top ≤ i ∧ i < pad_top + h ∧ pad_left ≤ j ∧ j < pad_left + w then
          s.visited (i - pad_top) (j - pad_left)
        else false
      origin := (s.origin.1 + pad_top, s.origin.2 + pad_left)
      curr_idx := (s.curr_idx.1 + pad_top, s.curr_idx.2 + pad_left)
      yaw := s.yaw }
  else s

/-- An index is in-bounds for the grid (0-based, no negative wrap). -/
def inBounds (s : Explorer) (p : ℤ × ℤ) : Prop :=
  0 ≤ p.1 ∧ p.1 < (s.h : ℤ) ∧ 0 ≤ p.2 ∧ p.2 < (s.w : ℤ)

instance (s : Explorer) (p : ℤ × ℤ) : Decidable (inBounds s p) := by
  unfold inBounds; infer_instance

/-- The world coordinate an index pair refers to, given the grid's origin and
resolution: index `i` on an axis denotes world coordinate
`(i - origin) * res`. -/
def worldOf (s : Explorer) (p : ℤ × ℤ) : ℚ × ℚ :=
  (((p.1 - s.origin.1 : ℤ) : ℚ) * s.res, ((p.2 - s.origin.2 : ℤ) : ℚ) * s.res)

/-- Motion commands emitted to the drone (djitellopy calls); angles in whole
degrees, forward distances in whole centimetres, as in the source. -/
inductive Cmd where
  | takeoff
  | rotate_cw (deg : ℤ)
  | rotate_ccw (deg : ℤ)
  | move_forward (cm : ℤ)
  | land
deriving DecidableEq, Repr

/-- Why the exploration loop stopped. -/
inductive Reason where
  | poseStreamExhausted
  | explorationComplete
deriving DecidableEq, Repr

/-- Python `%` for a real dividend and positive real divisor:
`a % b = a - b * floor(a / b)`, which lies in `[0, b)`. -/
noncomputable def fmod (a b : ℝ) : ℝ :=
  a - b * ⌊a / b⌋

/-- Python `int()` on a real number: truncation toward zero. -/
noncomputable def pyInt (r : ℝ) : ℤ :=
  if 0 ≤ r then ⌊r⌋ else -⌊-r⌋

/-- Two-argument arctangent `atan2 y x` with the C convention: range
`(-π, π]`, `atan2 0 0 = 0`. -/
noncomputable def atan2 (y x : ℝ) : ℝ :=
  if 0 < x then Real.arctan (y / x)
  else if x < 0 then
    if 0 ≤ y then Real.arctan (y / x) + Real.pi else Real.arctan (y / x) - Real.pi
  else
    if 0 < y then Real.pi / 2 else if y < 0 then -(Real.pi / 2) else 0

/-- Radians to degrees, `math.degrees`. -/
noncomputable def degreesOf (r : ℝ) : ℝ :=
  r * 180 / Real.pi

/-- A quaternion `(x, y, z, w)` as fed to `scipy...Rotation.from_quat`. -/
structure Quat where
  x : ℚ
  y : ℚ
  z : ℚ
  w : ℚ

/-- The third Euler angle of `as_euler('xyz')` applied to a unit quaternion —
the yaw about the vertical axis — in degrees:
`degrees(atan2(2*(qw*qz + qx*qy), 1 - 2*(qy^2 + qz^2)))`. -/
noncomputable def quatYawDeg (q : Quat) : ℝ :=
  degreesOf (atan2 (2 * ((q.w : ℝ) * q.z + q.x * q.y)) (1 - 2 * ((q.y : ℝ) ^ 2 + (q.z : ℝ) ^ 2)))

/-- The normalised heading difference computed by `TelloExplorer.rotate_to`:
`(target - yaw + 180) % 360 - 180`. -/
noncomputable def rotDiff (target yaw : ℝ) : ℝ :=
  fmod (target - yaw + 180) 360 - 180

/-- `TelloExplorer.rotate_to`: emit a clockwise command for a positive
normalised difference, a counter-clockwise command for a negative one (both
with the magnitude passed through `int()`), then record the target as the new
heading. -/
noncomputable def rotate_to (s : Explorer) (target : ℝ) : Explorer × List Cmd :=
  let diff := rotDiff target s.yaw
  let cmds :=
    if 0 < diff then [Cmd.rotate_cw (pyInt diff)]
    else if diff < 0 then [Cmd.rotate_ccw (pyInt (-diff))]
    else []
  ({ s with yaw := target }, cmds)

/-- `TelloExplorer.update_pose`: read the yaw from the quaternion, convert the
world position to a grid index, grow the map, set `curr_idx` to that (possibly
stale, possibly negative) index, and mark the cell free and visited through
numpy indexing. -/
noncomputable def update_pose (s : Explorer) (x y _z : ℚ) (quat : Quat) : Explorer :=
  let s1 : Explorer := { s with yaw := quatYawDeg quat }
  let g := world_to_grid s1 x y
  let s2 := ensure_in_map s1 g.1 g.2
  let s3 : Explorer := { s2 with curr_idx := g }
  { s3 with
    occ_map := fun a b =>
      if a = npIdx s3.h g.1 ∧ b = npIdx s3.w g.2 then Cell.free else s3.occ_map a b
    visited := fun a b =>
      if a = npIdx s3.h g.1 ∧ b = npIdx s3.w g.2 then true else s3.visited a b }

/-- The loop body of `TelloExplorer.get_frontier`: for each offset, grow the
map around the candidate neighbour of the *initially captured* `(x0, y0)`,
then keep the candidate if the cell read through numpy indexing is unknown. -/
def frontierLoop (x0 y0 : ℤ) : Explorer → List (ℤ × ℤ) → Explorer × List (ℤ × ℤ)
  | s, [] => (s, [])
  | s, d :: ds =>
    let nx := x0 + d.1
    let ny := y0 + d.2
    let s1 := ensure_in_map s nx ny
    let r := frontierLoop x0 y0 s1 ds
    if s1.occ_map (npIdx s1.h nx) (npIdx s1.w ny) = Cell.unknown then
      (r.1, (nx, ny) :: r.2)
    else r

/-- `TelloExplorer.get_frontier`: the 4-connected offsets in the fixed order
`(-1,0),(1,0),(0,-1),(0,1)` around the captured current index. -/
def get_frontier (s : Explorer) : Explorer × List (ℤ × ℤ) :=
  frontierLoop s.curr_idx.1 s.curr_idx.2 s [(-1, 0), (1, 0), (0, -1), (0, 1)]

/-- `TelloExplorer.choose_next_goal`: head of the frontier list, if any. -/
def choose_next_goal (s : Explorer) : Explorer × Option (ℤ × ℤ) :=
  let r := get_frontier s
  (r.1, r.2.head?)

/-- The forward distance `hypot(dx, dy) * resolution` (metres) computed by
`TelloExplorer.move_one_cell`. -/
noncomputable def forward_dist_m (dx dy : ℤ) (res : ℚ) : ℝ :=
  Real.sqrt ((dx : ℝ) ^ 2 + (dy : ℝ) ^ 2) * (res : ℝ)

/-- `TelloExplorer.move_one_cell`: face `degrees(atan2(dy, dx))` via
`rotate_to`, then emit `move_forward(int(dist_m * 100))`. -/
noncomputable def move_one_cell (s : Explorer) (goal : ℤ × ℤ) : Explorer × List Cmd :=
  let dx := goal.1 - s.curr_idx.1
  let dy := goal.2 - s.curr_idx.2
  let yaw_goal := degreesOf (atan2 (dy : ℝ) (dx : ℝ))
  let r := rotate_to s yaw_goal
  (r.1, r.2 ++ [Cmd.move_forward (pyInt (forward_dist_m dx dy s.res * 100))])

/-- One world pose sample `(x, y, z, quat)` as consumed by `update_pose`. -/
structure Pose where
  x : ℚ
  y : ℚ
  z : ℚ
  quat : Quat

/-- The `while` loop of `TelloExplorer.run`, with the external pose source
modelled as the list of samples its successive `next()` calls produce: an
empty list means the source reports no more pose updates. -/
noncomputable def runLoop : Explorer → List Pose → Explorer × List Cmd × Reason
  | s, [] => (s, [], Reason.poseStreamExhausted)
  | s, p :: rest =>
    let s1 := update_pose s p.x p.y p.z p.quat
    let g := choose_next_goal s1
    match g.2 with
    | none => (g.1, [], Reason.explorationComplete)
    | some goal =>
      let m := move_one_cell g.1 goal
      let r := runLoop m.1 rest
      (r.1, m.2 ++ r.2.1, r.2.2)

/-- `TelloExplorer.run`: take off, run the exploration loop, land. -/
noncomputable def run (s : Explorer) (poses : List Pose) : Explorer × List Cmd × Reason :=
  let r := runLoop s poses
  (r.1, Cmd.takeoff :: (r.2.1 ++ [Cmd.land]), r.2.2)

/-- Commands that move the drone: the executor's rotate and forward calls. -/
def isMotionCmd : Cmd → Bool
  | Cmd.rotate_cw _ => true
  | Cmd.rotate_ccw _ => true
  | Cmd.move_forward _ => true
  | Cmd.takeoff => false
  | Cmd.land => false

/-- The signed whole-degree rotation a command performs: clockwise positive,
counter-clockwise negative, zero for non-rotation commands. -/
def cmdRotation : Cmd → ℤ
  | Cmd.rotate_cw d => d
  | Cmd.rotate_ccw d => -d
  | Cmd.takeoff => 0
  | Cmd.land => 0
  | Cmd.move_forward _ => 0

/-- States reachable from a freshly constructed explorer (positive resolution
and a non-empty initial map, as in the source's `TelloExplorer(0.5, 50)`)
through the core operations. -/
inductive Reachable : Explorer → Prop
  | init (res : ℚ) (n : ℕ) (hres : 0 < res) (hn : 0 < n) :
      Reachable (initExplorer res n)
  | update (s : Explorer) (x y z : ℚ) (q : Quat) :
      Reachable s → Reachable (update_pose s x y z q)
  | frontier (s : Explorer) :
      Reachable s → Reachable (get_frontier s).1
  | move (s : Explorer) (g : ℤ × ℤ) :
      Reachable s → Reachable (move_one_cell s g).1

/-! ### Basic lemmas about the grid operations -/

theorem pyRound_intCast (n : ℤ) : pyRound (n : ℚ) = n := by
  unfold pyRound
  norm_num

theorem npIdx_of_nonneg {n : ℕ} {i : ℤ} (h : 0 ≤ i) : npIdx n i = i := by
  simp [npIdx, not_lt.mpr h]

theorem ensure_in_map_of_inBounds {s : Explorer} {gx gy : ℤ} (h : inBounds s (gx, gy)) :
    ensure_in_map s gx gy = s := by
  obtain ⟨h1, h2, h3, h4⟩ := h
  simp only [ensure_in_map]
  rw [if_neg]
  push_neg
  exact ⟨max_eq_left (by omega), max_eq_left (by omega),
    max_eq_left (by omega), max_eq_left (by omega)⟩

theorem ensure_res (s : Explorer) (gx gy : ℤ) : (ensure_in_map s gx gy).res = s.res := by
  simp only [ensure_in_map]
  split <;> rfl

theorem ensure_yaw (s : Explorer) (gx gy : ℤ) : (ensure_in_map s gx gy).yaw = s.yaw := by
  simp only [ensure_in_map]
  split <;> rfl

theorem ensure_h_int (s : Explorer) (gx gy : ℤ) :
    ((ensure_in_map s gx gy).h : ℤ) =
      (s.h : ℤ) + max 0 (-gx) + max 0 (gx - ((s.h : ℤ) - 1)) := by
  simp only [ensure_in_map]
  split
  · push_cast [Int.toNat_of_nonneg (le_max_left 0 (-gx)),
      Int.toNat_of_nonneg (le_max_left 0 (gx - ((s.h : ℤ) - 1)))]
    ring
  · next hc =>
      push_neg at hc
      omega

theorem ensure_w_int (s : Explorer) (gx gy : ℤ) :
    ((ensure_in_map s gx gy).w : ℤ) =
      (s.w : ℤ) + max 0 (-gy) + max 0 (gy - ((s.w : ℤ) - 1)) := by
  simp only [ensure_in_map]
  split
  · push_cast [Int.toNat_of_nonneg (le_max_left 0 (-gy)),
      Int.toNat_of_nonneg (le_max_left 0 (gy - ((s.w : ℤ) - 1)))]
    ring
  · next hc =>
      push_neg at hc
      omega

theorem ensure_origin (s : Explorer) (gx gy : ℤ) :
    (ensure_in_map s gx gy).origin =
      (s.origin.1 + max 0 (-gx), s.origin.2 + max 0 (-gy)) := by
  simp only [ensure_in_map]
  split
  · rfl
  · next hc =>
      push_neg at hc
      rw [hc.1, hc.2.2.1, add_zero, add_zero]

theorem ensure_curr (s : Explorer) (gx gy : ℤ) :
    (ensure_in_map s gx gy).curr_idx =
      (s.curr_idx.1 + max 0 (-gx), s.curr_idx.2 + max 0 (-gy)) := by
  simp only [ensure_in_map]
  split
  · rfl
  · next hc =>
      push_neg at hc
      rw [hc.1, hc.2.2.1, add_zero, add_zero]

theorem ensure_occ_shift (s : Explorer) (gx gy : ℤ) {i j : ℤ}
    (hi0 : 0 ≤ i) (hih : i < (s.h : ℤ)) (hj0 : 0 ≤ j) (hjw : j < (s.w : ℤ)) :
    (ensure_in_map s gx gy).occ_map (i + max 0 (-gx)) (j + max 0 (-gy)) =
      s.occ_map i j := by
  simp only [ensure_in_map]
  split
  · dsimp only
    rw [if_pos (by omega)]
    congr 1 <;> omega
  · next hc =>
      push_neg at hc
      rw [hc.1, hc.2.2.1, add_zero, add_zero]

theorem ensure_visited_shift (s : Explorer) (gx gy : ℤ) {i j : ℤ}
    (hi0 : 0 ≤ i) (hih : i < (s.h : ℤ)) (hj0 : 0 ≤ j) (hjw : j < (s.w : ℤ)) :
    (ensure_in_map s gx gy).visited (i + max 0 (-gx)) (j + max 0 (-gy)) =
      s.visited i j := by
  simp only [ensure_in_map]
  split
  · dsimp only
    rw [if_pos (by omega)]
    congr 1 <;> omega
  · next hc =>
      push_neg at hc
      rw [hc.1, hc.2.2.1, add_zero, add_zero]

theorem ensure_h_mono (s : Explorer) (gx gy : ℤ) : s.h ≤ (ensure_in_map s gx gy).h := by
  have := ensure_h_int s gx gy
  omega

theorem ensure_w_mono (s : Explorer) (gx gy : ℤ) : s.w ≤ (ensure_in_map s gx gy).w := by
  have := ensure_w_int s gx gy
  omega

/-- After growing the map around a nonnegative index, that index itself is
in-bounds (for a negative component the grid grows but the raw index stays
negative, hence out of bounds). -/
theorem ensure_inBounds_of_nonneg (s : Explorer) {gx gy : ℤ}
    (hx : 0 ≤ gx) (hy : 0 ≤ gy) :
    inBounds (ensure_in_map s gx gy) (gx, gy) := by
  have hh := ensure_h_int s gx gy
  have hw := ensure_w_int s gx gy
  exact ⟨hx, by omega, hy, by omega⟩

/-! ### Invariants preserved by the operations -/

/-- The grid never stores an `occ` cell. -/
def noOcc (s : Explorer) : Prop :=
  ∀ i j : ℤ, s.occ_map i j ≠ Cell.occ

theorem noOcc_ensure (s : Explorer) (gx gy : ℤ) (hs : noOcc s) :
    noOcc (ensure_in_map s gx gy) := by
  intro i j
  simp only [ensure_in_map]
  split
  · dsimp only
    split
    · exact hs _ _
    · exact fun hc => Cell.noConfusion hc
  · exact hs i j

theorem noOcc_update_pose {s : Explorer} (x y z : ℚ) (q : Quat) (hs : noOcc s) :
    noOcc (update_pose s x y z q) := by
  intro i j
  simp only [update_pose]
  split
  · exact fun hc => Cell.noConfusion hc
  · exact noOcc_ensure { s with yaw := quatYawDeg q } _ _ hs i j

theorem noOcc_frontierLoop (x0 y0 : ℤ) (ds : List (ℤ × ℤ)) :
    ∀ s : Explorer, noOcc s → noOcc (frontierLoop x0 y0 s ds).1 := by
  induction ds with
  | nil => exact fun s hs => hs
  | cons d ds ih =>
      intro s hs
      simp only [frontierLoop]
      split
      · exact ih _ (noOcc_ensure _ _ _ hs)
      · exact ih _ (noOcc_ensure _ _ _ hs)

theorem originInBounds_ensure (s : Explorer) (gx gy : ℤ)
    (hs : inBounds s s.origin) :
    inBounds (ensure_in_map s gx gy) (ensure_in_map s gx gy).origin := by
  obtain ⟨a, b, c, d⟩ := hs
  have hh := ensure_h_int s gx gy
  have hw := ensure_w_int s gx gy
  have ho := ensure_origin s gx gy
  rw [inBounds, ho]
  dsimp only
  refine ⟨by omega, by omega, by omega, by omega⟩

theorem originInBounds_update_pose {s : Explorer} (x y z : ℚ) (q : Quat)
    (hs : inBounds s s.origin) :
    inBounds (update_pose s x y z q) (update_pose s x y z q).origin := by
  simp only [update_pose]
  exact originInBounds_ensure { s with yaw := quatYawDeg q } _ _ hs

theorem originInBounds_frontierLoop (x0 y0 : ℤ) (ds : List (ℤ × ℤ)) :
    ∀ s : Explorer, inBounds s s.origin →
      inBounds (frontierLoop x0 y0 s ds).1 (frontierLoop x0 y0 s ds).1.origin := by
  induction ds with
  | nil => exact fun s hs => hs
  | cons d ds ih =>
      intro s hs
      simp only [frontierLoop]
      split
      · exact ih _ (originInBounds_ensure _ _ _ hs)
      · exact ih _ (originInBounds_ensure _ _ _ hs)

theorem frontierLoop_h_mono (x0 y0 : ℤ) (ds : List (ℤ × ℤ)) :
    ∀ s : Explorer, s.h ≤ (frontierLoop x0 y0 s ds).1.h := by
  induction ds with
  | nil => exact fun s => le_refl _
  | cons d ds ih =>
      intro s
      simp only [frontierLoop]
      split
      · exact le_trans (ensure_h_mono s _ _) (ih _)
      · exact le_trans (ensure_h_mono s _ _) (ih _)

theorem frontierLoop_w_mono (x0 y0 : ℤ) (ds : List (ℤ × ℤ)) :
    ∀ s : Explorer, s.w ≤ (frontierLoop x0 y0 s ds).1.w := by
  induction ds with
  | nil => exact fun s => le_refl _
  | cons d ds ih =>
      intro s
      simp only [frontierLoop]
      split
      · exact le_trans (ensure_w_mono s _ _) (ih _)
      · exact le_trans (ensure_w_mono s _ _) (ih _)

/-- Every reachable state stores no `occ` cell and keeps its origin inside
the grid bounds. -/
theorem reachable_invariant {s : Explorer} (hs : Reachable s) :
    noOcc s ∧ inBounds s s.origin := by
  induction hs with
  | init res n hres hn =>
      refine ⟨fun i j hc => Cell.noConfusion hc, ?_, ?_, ?_, ?_⟩ <;>
        simp only [initExplorer] <;> omega
  | update s x y z q hs ih =>
      exact ⟨noOcc_update_pose x y z q ih.1, originInBounds_update_pose x y z q ih.2⟩
  | frontier s hs ih =>
      exact ⟨noOcc_frontierLoop _ _ _ _ ih.1, originInBounds_frontierLoop _ _ _ _ ih.2⟩
  | move s g hs ih =>
      exact ih

/-! ### The frontier query against its specification -/

/-- The frontier as the specification describes it: the 4-connected
neighbours of `current_index`, in the fixed order
`(-1,0),(1,0),(0,-1),(0,1)`, filtered to those whose cell state is
`Unknown`. -/
def specFrontier (s : Explorer) : List (ℤ × ℤ) :=
  [(s.curr_idx.1 - 1, s.curr_idx.2), (s.curr_idx.1 + 1, s.curr_idx.2),
   (s.curr_idx.1, s.curr_idx.2 - 1), (s.curr_idx.1, s.curr_idx.2 + 1)].filter
    (fun p => decide (s.occ_map p.1 p.2 = Cell.unknown))

/-- When all four neighbours of the current cell are already in-bounds, the
code's frontier query performs no padding, mutates nothing, and returns
exactly the specified filter of the four neighbours. -/
theorem get_frontier_interior (s : Explorer)
    (h1 : inBounds s (s.curr_idx.1 - 1, s.curr_idx.2))
    (h2 : inBounds s (s.curr_idx.1 + 1, s.curr_idx.2))
    (h3 : inBounds s (s.curr_idx.1, s.curr_idx.2 - 1))
    (h4 : inBounds s (s.curr_idx.1, s.curr_idx.2 + 1)) :
    get_frontier s = (s, specFrontier s) := by
  have e1 : s.curr_idx.1 + (-1 : ℤ) = s.curr_idx.1 - 1 := by ring
  have e2 : s.curr_idx.2 + (-1 : ℤ) = s.curr_idx.2 - 1 := by ring
  have e3 : s.curr_idx.1 + (0 : ℤ) = s.curr_idx.1 := by ring
  have e4 : s.curr_idx.2 + (0 : ℤ) = s.curr_idx.2 := by ring
  simp only [get_frontier, frontierLoop]
  rw [e1, e2, e3, e4]
  rw [ensure_in_map_of_inBounds h1, ensure_in_map_of_inBounds h2,
    ensure_in_map_of_inBounds h3, ensure_in_map_of_inBounds h4]
  rw [npIdx_of_nonneg h1.1, npIdx_of_nonneg h1.2.2.1, npIdx_of_nonneg h2.1,
    npIdx_of_nonneg h3.1, npIdx_of_nonneg h3.2.2.1, npIdx_of_nonneg h4.2.2.1]
  simp only [specFrontier, List.filter_cons, List.filter_nil, decide_eq_true_eq]
  split_ifs <;> rfl

/-! ### A concrete boundary state reached by one pose update -/

/-- The identity quaternion. -/
def q0 : Quat := ⟨0, 0, 0, 1⟩

/-- A minimal fresh explorer: a 1-by-1 all-unknown grid with origin and
current index at (0,0), resolution 1. -/
def e0 : Explorer := initExplorer 1 1

/-- The state reached from `e0` by one pose update at the world origin,
written out explicitly: the single cell is free and visited, and the current
index (0,0) lies on every grid boundary. -/
noncomputable def eB : Explorer :=
  { res := 1, h := 1, w := 1,
    occ_map := fun a b => if a = 0 ∧ b = 0 then Cell.free else Cell.unknown,
    visited := fun a b => if a = 0 ∧ b = 0 then true else false,
    origin := (0, 0), curr_idx := (0, 0),
    yaw := quatYawDeg q0 }

theorem update_pose_e0 : update_pose e0 0 0 0 q0 = eB := by
  have hg : world_to_grid { e0 with yaw := quatYawDeg q0 } 0 0 = (0, 0) := by
    simp only [world_to_grid, e0, initExplorer]
    norm_num [pyRound]
  have hb : inBounds { e0 with yaw := quatYawDeg q0 } ((0 : ℤ), (0 : ℤ)) := by
    refine ⟨le_refl 0, ?_, le_refl 0, ?_⟩ <;> simp [e0, initExplorer]
  simp only [update_pose]
  rw [hg]
  rw [ensure_in_map_of_inBounds hb]
  rw [npIdx_of_nonneg (le_refl 0), npIdx_of_nonneg (le_refl 0)]
  rfl

theorem reachable_eB : Reachable eB :=
  update_pose_e0 ▸ Reachable.update _ 0 0 0 q0 (Reachable.init 1 1 one_pos one_pos)

/-! ### Heading arithmetic -/

theorem fmod_nonneg (a b : ℝ) (hb : 0 < b) : 0 ≤ fmod a b := by
  have h1 : ((⌊a / b⌋ : ℝ)) ≤ a / b := Int.floor_le _
  have h2 : b * (⌊a / b⌋ : ℝ) ≤ b * (a / b) :=
    mul_le_mul_of_nonneg_left h1 (le_of_lt hb)
  rw [mul_div_cancel₀ a (ne_of_gt hb)] at h2
  simpa [fmod] using h2

theorem fmod_lt (a b : ℝ) (hb : 0 < b) : fmod a b < b := by
  have h1 : a / b < (⌊a / b⌋ : ℝ) + 1 := Int.lt_floor_add_one _
  have h2 : b * (a / b) < b * ((⌊a / b⌋ : ℝ) + 1) :=
    mul_lt_mul_of_pos_left h1 hb
  rw [mul_div_cancel₀ a (ne_of_gt hb)] at h2
  unfold fmod
  nlinarith

theorem rotDiff_bounds (t y : ℝ) : -180 ≤ rotDiff t y ∧ rotDiff t y < 180 := by
  have h1 := fmod_nonneg (t - y + 180) 360 (by norm_num)
  have h2 := fmod_lt (t - y + 180) 360 (by norm_num)
  unfold rotDiff
  constructor <;> linarith

theorem rotDiff_congruent (t y : ℝ) : ∃ k : ℤ, t - y - rotDiff t y = 360 * k := by
  refine ⟨⌊(t - y + 180) / 360⌋, ?_⟩
  unfold rotDiff fmod
  ring

theorem rotDiff_180_0 : rotDiff 180 0 = -180 := by
  unfold rotDiff fmod
  norm_num

theorem atan2_two_zero : atan2 2 0 = Real.pi / 2 := by
  norm_num [atan2]

theorem degreesOf_pi_div_two : degreesOf (Real.pi / 2) = 90 := by
  unfold degreesOf
  rw [div_eq_iff Real.pi_ne_zero]
  ring

theorem atan2_zero_one : atan2 0 1 = 0 := by
  norm_num [atan2, Real.arctan_zero]

theorem degreesOf_zero : degreesOf 0 = 0 := by
  simp [degreesOf]

theorem rotDiff_90_0 : rotDiff 90 0 = 90 := by
  unfold rotDiff fmod
  norm_num

theorem forward_dist_m_zero_two : forward_dist_m 0 2 (1 / 2) = 1 := by
  unfold forward_dist_m
  push_cast
  rw [show (0 : ℝ) ^ 2 + 2 ^ 2 = 2 ^ 2 by norm_num]
  rw [Real.sqrt_sq (by norm_num : (0 : ℝ) ≤ 2)]
  norm_num

/-! ### Motion-planner evaluation -/

/-- The world-frame heading `degrees(atan2(dy, dx))` that `move_one_cell`
computes for a goal cell. -/
noncomputable def yawGoal (s : Explorer) (goal : ℤ × ℤ) : ℝ :=
  degreesOf (atan2 ((goal.2 - s.curr_idx.2 : ℤ) : ℝ) ((goal.1 - s.curr_idx.1 : ℤ) : ℝ))

/-- Unfolding `move_one_cell`: the returned state is the input with the
heading overwritten by the exact target heading, and the trace is the
rotation command (if any) followed by the forward command. -/
theorem move_one_cell_eval (s : Explorer) (goal : ℤ × ℤ) :
    move_one_cell s goal =
      (({ s with yaw := yawGoal s goal } : Explorer),
        (if 0 < rotDiff (yawGoal s goal) s.yaw then
          [Cmd.rotate_cw (pyInt (rotDiff (yawGoal s goal) s.yaw))]
         else if rotDiff (yawGoal s goal) s.yaw < 0 then
          [Cmd.rotate_ccw (pyInt (-rotDiff (yawGoal s goal) s.yaw))]
         else []) ++
          [Cmd.move_forward
            (pyInt (forward_dist_m (goal.1 - s.curr_idx.1) (goal.2 - s.curr_idx.2) s.res * 100))]) :=
  rfl

/-- The motion-planning configuration of the spec's worked example:
`current_index = (0,0)`, `current_heading = 0`, `resolution = 0.5`. -/
def s8 : Explorer := { initExplorer (1 / 2) 50 with curr_idx := (0, 0) }

/-! ### Claims -/

/-- C1, counterexample: from a fresh 1-by-1 grid, `world_to_index` maps world
point (-1, 0) to index (-1, 0); after `ensure_contains` on that index the
index is still out of bounds (its row is negative), and the world coordinate
the index refers to has changed (the origin shifted under it from row
coordinate -1 to -2). -/
theorem C1_cex :
    world_to_grid e0 (-1) 0 = (-1, 0) ∧
    ¬ inBounds (ensure_in_map e0 (-1) 0) (-1, 0) ∧
    worldOf (ensure_in_map e0 (-1) 0) (-1, 0) ≠ worldOf e0 (-1, 0) := by
  refine ⟨?_, by decide, ?_⟩
  · unfold world_to_grid e0 initExplorer
    norm_num
    constructor
    · rw [show ((-1 : ℚ)) = ((-1 : ℤ) : ℚ) by norm_num, pyRound_intCast]
    · rw [show ((0 : ℚ)) = ((0 : ℤ) : ℚ) by norm_num, pyRound_intCast]
  · have h1 : (ensure_in_map e0 (-1) 0).origin = (1, 0) := by decide
    have h2 : (ensure_in_map e0 (-1) 0).res = 1 := ensure_res e0 (-1) 0
    have hL : worldOf (ensure_in_map e0 (-1) 0) (-1, 0) = (-2, 0) := by
      simp only [worldOf, h1, h2]
      norm_num
    have hR : worldOf e0 (-1, 0) = (-1, 0) := by
      simp only [worldOf, e0, initExplorer]
      norm_num
    rw [hL, hR]
    intro hcontra
    have hfst := congrArg Prod.fst hcontra
    norm_num at hfst

/-- C1 (amended): after `ensure_contains (gx, gy)` the index shifted by the
top/left pad amounts, `(gx + pad_top, gy + pad_left)`, is in-bounds and refers
to exactly the world coordinate that `(gx, gy)` referred to before the call;
the raw index `(gx, gy)` itself is in-bounds with unchanged world coordinate
exactly when no top/left padding was needed. -/
theorem C1_amended (s : Explorer) (gx gy : ℤ) :
    inBounds (ensure_in_map s gx gy) (gx + max 0 (-gx), gy + max 0 (-gy)) ∧
    worldOf (ensure_in_map s gx gy) (gx + max 0 (-gx), gy + max 0 (-gy)) =
      worldOf s (gx, gy) ∧
    (max 0 (-gx) = 0 → max 0 (-gy) = 0 →
      inBounds (ensure_in_map s gx gy) (gx, gy) ∧
      worldOf (ensure_in_map s gx gy) (gx, gy) = worldOf s (gx, gy)) := by
  have hh := ensure_h_int s gx gy
  have hw := ensure_w_int s gx gy
  have ho := ensure_origin s gx gy
  have hr := ensure_res s gx gy
  have e1 : gx + max 0 (-gx) - (s.origin.1 + max 0 (-gx)) = gx - s.origin.1 := by ring
  have e2 : gy + max 0 (-gy) - (s.origin.2 + max 0 (-gy)) = gy - s.origin.2 := by ring
  refine ⟨⟨by omega, by omega, by omega, by omega⟩, ?_, ?_⟩
  · rw [worldOf, worldOf, ho]
    dsimp only
    rw [e1, e2, hr]
  · intro hpt hpl
    refine ⟨⟨by omega, by omega, by omega, by omega⟩, ?_⟩
    rw [worldOf, worldOf, ho, hpt, hpl]
    dsimp only
    rw [add_zero, add_zero, hr]

/-- C1, witness: instantiating the amended claim at the fresh 1-by-1 grid and
the nonnegative index (2, 3), which needs only bottom/right growth. -/
theorem C1_witness :
    inBounds (ensure_in_map e0 2 3) (2, 3) ∧
    worldOf (ensure_in_map e0 2 3) (2, 3) = worldOf e0 (2, 3) :=
  (C1_amended e0 2 3).2.2 (by decide) (by decide)

/-- C2, counterexample: in the reachable state after one pose update on a
1-by-1 grid the current index (0,0) lies on the boundary; the code returns
`[(0,-1),(0,1)]` while the specified frontier (the Unknown 4-neighbours of
the current index, in the fixed order) is all four neighbours — the
speculative `ensure_contains` calls shift the grid under the stale captured
index, so two Unknown neighbours are dropped. -/
theorem C2_cex :
    Reachable (update_pose e0 0 0 0 q0) ∧
    (get_frontier (update_pose e0 0 0 0 q0)).2 = [(0, -1), (0, 1)] ∧
    specFrontier (update_pose e0 0 0 0 q0) = [(-1, 0), (1, 0), (0, -1), (0, 1)] ∧
    (get_frontier (update_pose e0 0 0 0 q0)).2 ≠ specFrontier (update_pose e0 0 0 0 q0) := by
  refine ⟨Reachable.update _ 0 0 0 q0 (Reachable.init 1 1 one_pos one_pos), ?_, ?_, ?_⟩ <;>
    rw [update_pose_e0] <;> decide

/-- C2 (amended): whenever the four 4-connected neighbours of `current_index`
are already in-bounds (so frontier detection triggers no growth),
`get_frontier` returns exactly the neighbours whose cell state is Unknown, in
the fixed offset order `(-1,0),(1,0),(0,-1),(0,1)`, and is empty when no such
neighbour is Unknown. -/
theorem C2_amended (s : Explorer)
    (h1 : inBounds s (s.curr_idx.1 - 1, s.curr_idx.2))
    (h2 : inBounds s (s.curr_idx.1 + 1, s.curr_idx.2))
    (h3 : inBounds s (s.curr_idx.1, s.curr_idx.2 - 1))
    (h4 : inBounds s (s.curr_idx.1, s.curr_idx.2 + 1)) :
    (get_frontier s).2 = specFrontier s :=
  congrArg Prod.snd (get_frontier_interior s h1 h2 h3 h4)

/-- C2, witness: on the fresh 50-by-50 grid the current cell is interior and
all four neighbours are Unknown, so the frontier is the specified filter. -/
theorem C2_witness :
    (get_frontier (initExplorer (1 / 2) 50)).2 = specFrontier (initExplorer (1 / 2) 50) :=
  C2_amended _ (by decide) (by decide) (by decide) (by decide)

/-- C3, counterexample: for a heading difference of exactly 180 degrees the
planner computes -180, which is outside the claimed interval (-180, 180], and
accordingly emits a counter-clockwise 180-degree command instead of the
clockwise one the spec's convention requires. -/
theorem C3_cex :
    rotDiff 180 0 = -180 ∧
    ¬ (-180 < rotDiff 180 0) ∧
    (rotate_to (initExplorer (1 / 2) 50) 180).2 = [Cmd.rotate_ccw 180] := by
  refine ⟨rotDiff_180_0, by rw [rotDiff_180_0]; norm_num, ?_⟩
  have hy : (initExplorer (1 / 2) 50).yaw = 0 := rfl
  simp only [rotate_to]
  rw [hy, rotDiff_180_0]
  rw [if_neg (by norm_num), if_pos (by norm_num)]
  norm_num [pyInt]

/-- C3 (amended): the planner's rotation is the unique value congruent to
`target_heading - current_heading` modulo 360 that lies in the half-open
interval [-180, 180) — closed at -180 and open at 180, not the other way
around. -/
theorem C3_amended (t y : ℝ) :
    (-180 ≤ rotDiff t y ∧ rotDiff t y < 180) ∧
    (∃ k : ℤ, t - y - rotDiff t y = 360 * k) ∧
    (∀ v : ℝ, -180 ≤ v → v < 180 → (∃ k : ℤ, t - y - v = 360 * k) → v = rotDiff t y) := by
  obtain ⟨k1, hk1⟩ := rotDiff_congruent t y
  refine ⟨rotDiff_bounds t y, ⟨k1, hk1⟩, ?_⟩
  rintro v hv1 hv2 ⟨k2, hk2⟩
  have hb := rotDiff_bounds t y
  have hdiff : v - rotDiff t y = 360 * ((k1 : ℝ) - (k2 : ℝ)) := by linarith
  have hlt : ((k1 - k2 : ℤ) : ℝ) < 1 := by push_cast; nlinarith
  have hgt : (-1 : ℝ) < ((k1 - k2 : ℤ) : ℝ) := by push_cast; nlinarith
  have hz : k1 = k2 := by
    have h1 : (k1 - k2 : ℤ) < 1 := by exact_mod_cast hlt
    have h2 : (-1 : ℤ) < k1 - k2 := by exact_mod_cast hgt
    omega
  have : (k1 : ℝ) = (k2 : ℝ) := by exact_mod_cast hz
  linarith

/-- C3, witness: 90 is its own normalisation for target 90 and heading 0. -/
theorem C3_witness : (90 : ℝ) = rotDiff 90 0 :=
  (C3_amended 90 0).2.2 90 (by norm_num) (by norm_num) ⟨0, by norm_num⟩

/-- C4: starting from any fresh explorer, no sequence of core operations ever
stores the Occupied state — every cell of a reachable grid is Unknown or
Free. -/
theorem C4_never_occupied (s : Explorer) (hs : Reachable s) (i j : ℤ) :
    s.occ_map i j = Cell.unknown ∨ s.occ_map i j = Cell.free := by
  have h := (reachable_invariant hs).1 i j
  cases hcell : s.occ_map i j
  · exact Or.inl rfl
  · exact Or.inr rfl
  · exact absurd hcell h

/-- C4, witness: the cell written by a pose update is Free, in particular not
Occupied. -/
theorem C4_witness :
    (update_pose e0 0 0 0 q0).occ_map 0 0 = Cell.unknown ∨
    (update_pose e0 0 0 0 q0).occ_map 0 0 = Cell.free :=
  C4_never_occupied _ (Reachable.update _ 0 0 0 q0 (Reachable.init 1 1 one_pos one_pos)) 0 0

/-- C5, counterexample: `ensure_contains` is not idempotent on an index with a
negative component: each call pads the top again (the height grows from 1 to
2 to 3), so two calls differ from one. -/
theorem C5_cex :
    ensure_in_map (ensure_in_map e0 (-1) 0) (-1) 0 ≠ ensure_in_map e0 (-1) 0 :=
  fun hc => absurd (congrArg Explorer.h hc) (by decide)

/-- C5 (amended): `ensure_contains` is idempotent for every index with
nonnegative components — the second call returns a state identical to the
first — and a call with an already-contained index changes nothing at all. -/
theorem C5_amended (s : Explorer) (gx gy : ℤ) (hx : 0 ≤ gx) (hy : 0 ≤ gy) :
    ensure_in_map (ensure_in_map s gx gy) gx gy = ensure_in_map s gx gy ∧
    (inBounds s (gx, gy) → ensure_in_map s gx gy = s) :=
  ⟨ensure_in_map_of_inBounds (ensure_inBounds_of_nonneg s hx hy),
   fun h => ensure_in_map_of_inBounds h⟩

/-- C5, witness: growing a 1-by-1 grid to cover (2, 0) twice equals growing
it once. -/
theorem C5_witness :
    ensure_in_map (ensure_in_map e0 2 0) 2 0 = ensure_in_map e0 2 0 :=
  (C5_amended e0 2 0 (by norm_num) (le_refl 0)).1

/-- C6, counterexample: in the reachable boundary state after one pose update
on a 1-by-1 grid, calling `get_frontier` changes the state — the grid height
grows and the origin shifts — so the query is not read-only. -/
theorem C6_cex :
    Reachable (update_pose e0 0 0 0 q0) ∧
    (get_frontier (update_pose e0 0 0 0 q0)).1.h ≠ (update_pose e0 0 0 0 q0).h ∧
    (get_frontier (update_pose e0 0 0 0 q0)).1.origin ≠ (update_pose e0 0 0 0 q0).origin := by
  refine ⟨Reachable.update _ 0 0 0 q0 (Reachable.init 1 1 one_pos one_pos), ?_, ?_⟩ <;>
    rw [update_pose_e0] <;> decide

/-- C6 (amended): `get_frontier` is read-only whenever the four neighbours of
the current cell are already in-bounds: the returned state — occupancy grid,
visited mask, origin, current index and heading — is the input state. -/
theorem C6_amended (s : Explorer)
    (h1 : inBounds s (s.curr_idx.1 - 1, s.curr_idx.2))
    (h2 : inBounds s (s.curr_idx.1 + 1, s.curr_idx.2))
    (h3 : inBounds s (s.curr_idx.1, s.curr_idx.2 - 1))
    (h4 : inBounds s (s.curr_idx.1, s.curr_idx.2 + 1)) :
    (get_frontier s).1 = s :=
  congrArg Prod.fst (get_frontier_interior s h1 h2 h3 h4)

/-- C6, witness: on a fresh 9-by-9 grid the current cell is interior, so the
frontier query leaves the state untouched. -/
theorem C6_witness :
    (get_frontier (initExplorer 1 9)).1 = initExplorer 1 9 :=
  C6_amended _ (by decide) (by decide) (by decide) (by decide)

/-- C7: with an empty pose source, `run` takes off, immediately observes the
exhausted stream, and lands: it returns the unchanged state, the trace
contains only the takeoff and landing, the termination reason is
`PoseStreamExhausted`, and no rotate or move-forward command is ever sent to
the motion executor. -/
theorem C7_empty_pose_stream (s : Explorer) :
    run s [] = (s, [Cmd.takeoff, Cmd.land], Reason.poseStreamExhausted) ∧
    ((run s []).2.1.all fun c => ! isMotionCmd c) = true :=
  ⟨rfl, rfl⟩

/-- C8: in the spec's worked configuration — current index (0,0), heading 0,
goal (0,2), resolution 0.5 — the planner rotates clockwise by 90 degrees and
moves forward 100 cm; the planned forward distance `hypot(dx,dy) * resolution`
equals 1 metre there and is non-negative for every goal offset and
non-negative resolution. -/
theorem C8_motion_plan :
    (move_one_cell s8 (0, 2)).2 = [Cmd.rotate_cw 90, Cmd.move_forward 100] ∧
    (move_one_cell s8 (0, 2)).1.yaw = 90 ∧
    forward_dist_m 0 2 (1 / 2) = 1 ∧
    ∀ (dx dy : ℤ) (r : ℚ), 0 ≤ r → 0 ≤ forward_dist_m dx dy r := by
  have hcx : s8.curr_idx = ((0 : ℤ), (0 : ℤ)) := rfl
  have hyaw : s8.yaw = 0 := rfl
  have hres : s8.res = 1 / 2 := rfl
  have htarget : yawGoal s8 (0, 2) = 90 := by
    rw [yawGoal, hcx]
    norm_num
    rw [atan2_two_zero, degreesOf_pi_div_two]
  have hd1 : ((0, 2) : ℤ × ℤ).1 - s8.curr_idx.1 = 0 := rfl
  have hd2 : ((0, 2) : ℤ × ℤ).2 - s8.curr_idx.2 = 2 := rfl
  refine ⟨?_, ?_, forward_dist_m_zero_two, ?_⟩
  · rw [move_one_cell_eval]
    dsimp only
    rw [htarget, hyaw, rotDiff_90_0, if_pos (by norm_num : (0 : ℝ) < 90)]
    rw [hd1, hd2, hres, forward_dist_m_zero_two]
    norm_num [pyInt]
  · rw [move_one_cell_eval]
    dsimp only
    exact htarget
  · intro dx dy r hr
    exact mul_nonneg (Real.sqrt_nonneg _) (by exact_mod_cast hr)

/-- C8, witness: a concrete non-negative forward distance with a positive
resolution. -/
theorem C8_witness : (0 : ℝ) ≤ forward_dist_m 3 4 2 :=
  C8_motion_plan.2.2.2 3 4 2 (by norm_num)

/-- C10: after planning a move, the stored heading is the exact real target
`degrees(atan2(dy, dx))`, while the signed rotation actually commanded is the
planned rotation truncated toward zero to whole degrees; consequently, when
the planned rotation has magnitude below one degree, every emitted command
carries a zero rotation even though the heading is updated to the target. -/
theorem C10_exact_heading_truncated_command (s : Explorer) (goal : ℤ × ℤ) :
    (move_one_cell s goal).1.yaw = yawGoal s goal ∧
    ((move_one_cell s goal).2.map cmdRotation).sum =
      pyInt (rotDiff (yawGoal s goal) s.yaw) ∧
    (|rotDiff (yawGoal s goal) s.yaw| < 1 →
      ((move_one_cell s goal).2.all fun c => cmdRotation c == 0) = true) := by
  refine ⟨rfl, ?_, ?_⟩
  · rw [move_one_cell_eval]
    dsimp only
    set d := rotDiff (yawGoal s goal) s.yaw with hd
    split_ifs with hpos hneg
    · simp only [List.map_append, List.map_cons, List.map_nil, List.sum_append,
        List.sum_cons, List.sum_nil, cmdRotation]
      ring
    · simp only [List.map_append, List.map_cons, List.map_nil, List.sum_append,
        List.sum_cons, List.sum_nil, cmdRotation]
      have h1 : pyInt (-d) = ⌊-d⌋ := by rw [pyInt, if_pos (by linarith)]
      have h2 : pyInt d = -⌊-d⌋ := by rw [pyInt, if_neg (by linarith)]
      rw [h1, h2]
      ring
    · have h0 : d = 0 := le_antisymm (not_lt.mp hpos) (not_lt.mp hneg)
      rw [h0]
      simp [cmdRotation, pyInt]
  · intro habs
    rw [abs_lt] at habs
    rw [move_one_cell_eval]
    dsimp only
    set d := rotDiff (yawGoal s goal) s.yaw with hd
    split_ifs with hpos hneg
    · have h1 : pyInt d = 0 := by
        rw [pyInt, if_pos (le_of_lt hpos)]
        exact Int.floor_eq_zero_iff.mpr ⟨le_of_lt hpos, habs.2⟩
      rw [h1]
      simp only [List.all_append, List.all_cons, List.all_nil, cmdRotation]
      rfl
    · have h1 : pyInt (-d) = 0 := by
        rw [pyInt, if_pos (by linarith)]
        exact Int.floor_eq_zero_iff.mpr ⟨by linarith, by linarith⟩
      rw [h1]
      simp only [List.all_append, List.all_cons, List.all_nil, cmdRotation]
      rfl
    · simp only [List.nil_append, List.all_cons, List.all_nil, cmdRotation]
      rfl

/-- C10, witness: with heading 0.5 degrees and a goal straight ahead (target
heading 0), the planned rotation is -0.5 degrees, so the emitted commands all
carry zero rotation. -/
theorem C10_witness :
    ((move_one_cell ({ e0 with yaw := (1 / 2 : ℝ) }) (1, 0)).2.all
      fun c => cmdRotation c == 0) = true := by
  have hy : yawGoal ({ e0 with yaw := (1 / 2 : ℝ) }) (1, 0) = 0 := by
    rw [yawGoal]
    rw [show ((1, 0) : ℤ × ℤ).2 - ({ e0 with yaw := (1 / 2 : ℝ) } : Explorer).curr_idx.2 = 0
        from rfl,
      show ((1, 0) : ℤ × ℤ).1 - ({ e0 with yaw := (1 / 2 : ℝ) } : Explorer).curr_idx.1 = 1
        from rfl]
    norm_num [atan2_zero_one, degreesOf_zero]
  refine (C10_exact_heading_truncated_command ({ e0 with yaw := (1 / 2 : ℝ) }) (1, 0)).2.2 ?_
  rw [hy, show ({ e0 with yaw := (1 / 2 : ℝ) } : Explorer).yaw = (1 / 2 : ℝ) from rfl]
  rw [rotDiff, fmod, abs_lt]
  norm_num

/-- C9: in every reachable state the origin lies inside the grid bounds, and
each core operation only expands the grid: the row and column counts never
decrease under a pose update, a frontier query, a planned move or an explicit
`ensure_contains`, and growth never renumbers an existing cell relative to
the origin — the shifted copy of each in-bounds cell holds the same state at
the same origin-relative position. -/
theorem C9_origin_and_monotonic_growth :
    (∀ s : Explorer, Reachable s → inBounds s s.origin) ∧
    (∀ (s : Explorer) (x y z : ℚ) (q : Quat),
      s.h ≤ (update_pose s x y z q).h ∧ s.w ≤ (update_pose s x y z q).w) ∧
    (∀ s : Explorer, s.h ≤ (get_frontier s).1.h ∧ s.w ≤ (get_frontier s).1.w) ∧
    (∀ (s : Explorer) (g : ℤ × ℤ),
      (move_one_cell s g).1.h = s.h ∧ (move_one_cell s g).1.w = s.w) ∧
    (∀ (s : Explorer) (gx gy : ℤ),
      s.h ≤ (ensure_in_map s gx gy).h ∧ s.w ≤ (ensure_in_map s gx gy).w) ∧
    (∀ (s : Explorer) (gx gy i j : ℤ),
      0 ≤ i → i < (s.h : ℤ) → 0 ≤ j → j < (s.w : ℤ) →
      (ensure_in_map s gx gy).occ_map (i + max 0 (-gx)) (j + max 0 (-gy)) = s.occ_map i j ∧
      (i + max 0 (-gx)) - (ensure_in_map s gx gy).origin.1 = i - s.origin.1 ∧
      (j + max 0 (-gy)) - (ensure_in_map s gx gy).origin.2 = j - s.origin.2) := by
  refine ⟨fun s hs => (reachable_invariant hs).2, ?_, ?_, ?_, ?_, ?_⟩
  · intro s x y z q
    exact ⟨ensure_h_mono { s with yaw := quatYawDeg q }
        (world_to_grid { s with yaw := quatYawDeg q } x y).1
        (world_to_grid { s with yaw := quatYawDeg q } x y).2,
      ensure_w_mono { s with yaw := quatYawDeg q }
        (world_to_grid { s with yaw := quatYawDeg q } x y).1
        (world_to_grid { s with yaw := quatYawDeg q } x y).2⟩
  · intro s
    exact ⟨frontierLoop_h_mono _ _ _ s, frontierLoop_w_mono _ _ _ s⟩
  · intro s g
    exact ⟨rfl, rfl⟩
  · intro s gx gy
    exact ⟨ensure_h_mono s gx gy, ensure_w_mono s gx gy⟩
  · intro s gx gy i j hi0 hih hj0 hjw
    refine ⟨ensure_occ_shift s gx gy hi0 hih hj0 hjw, ?_, ?_⟩ <;>
      rw [ensure_origin] <;> dsimp only <;> ring

/-- C9, witness: the fresh 1-by-1 grid satisfies the origin invariant, and
padding it to cover the negative index (-1, 0) keeps the single cell's state
at its shifted position. -/
theorem C9_witness :
    inBounds e0 e0.origin ∧
    (ensure_in_map e0 (-1) 0).occ_map (0 + max 0 (-(-1 : ℤ))) (0 + max 0 (-(0 : ℤ))) =
      e0.occ_map 0 0 :=
  ⟨C9_origin_and_monotonic_growth.1 e0 (Reachable.init 1 1 one_pos one_pos),
   (C9_origin_and_monotonic_growth.2.2.2.2.2 e0 (-1) 0 0 0 (by decide) (by decide)
      (by decide) (by decide)).1⟩

end DroneSearch
